import Mathlib

/-!
Verification of the pheres lexer and parser (lexical-to-syntax-tree pipeline).

The definitions below are a shallow embedding of `src/lexer.rs`, `src/syntax.rs`
and `src/parser.rs`.  Character streams are modelled as `List Char`; the Rust
cursor's `first`/`second`/`third` peeking (which yields the NUL character at end
of input, via `unwrap_or_default`) is modelled with `headD` against the NUL
character.  Loops whose termination is not structural are given explicit fuel;
the fuel supplied by the wrappers is always sufficient (proved where a claim
needs it).  The parser is modelled as one fuel-indexed step function `run` over
a call tag, so that every recursive call of the Rust parser decrements fuel by
exactly one; `PRes.noFuel` models non-termination (a result holding for every
fuel) and `PRes.panicked` models the `assert` and the unimplemented-feature
aborts in the source.
-/

/-- The NUL character, which Rust's `unwrap_or_default()` yields for `char`. -/
def nulChar : Char := Char.ofNat 0

/-- ASCII lowercase test, as Rust `char::is_ascii_lowercase`. -/
def isAsciiLower (c : Char) : Bool := 97 ≤ c.toNat && c.toNat ≤ 122

/-- ASCII uppercase test, as Rust `char::is_ascii_uppercase`. -/
def isAsciiUpper (c : Char) : Bool := 65 ≤ c.toNat && c.toNat ≤ 90

/-- ASCII digit test, as Rust `char::is_ascii_digit`. -/
def isAsciiDigit (c : Char) : Bool := 48 ≤ c.toNat && c.toNat ≤ 57

/-- ASCII alphanumeric test, as Rust `char::is_ascii_alphanumeric`. -/
def isAsciiAlphanumeric (c : Char) : Bool :=
  isAsciiLower c || isAsciiUpper c || isAsciiDigit c

/-- Unicode whitespace test, as Rust `char::is_whitespace` (the White_Space
property: U+0009..U+000D, U+0020, U+0085, U+00A0, U+1680, U+2000..U+200A,
U+2028, U+2029, U+202F, U+205F, U+3000). -/
def rustIsWhitespace (c : Char) : Bool :=
  let n := c.toNat
  (9 ≤ n && n ≤ 13) || n == 32 || n == 133 || n == 160 || n == 5760 ||
  (8192 ≤ n && n ≤ 8202) || n == 8232 || n == 8233 || n == 8239 ||
  n == 8287 || n == 12288

set_option maxHeartbeats 1600000 in
/-- Raw token kinds of the scanner (`lexer.rs`, `enum TokenKind`). -/
inductive TokenKind where
  | Whitespace
  | LineComment
  | BlockComment (terminated : Bool)
  | Functor
  | Variable
  | Wildcard
  | Integer
  | Float
  | String (terminated : Bool)
  | True
  | False
  | If
  | Else
  | While
  | For
  | Include
  | Begin
  | End
  | OpenParen
  | CloseParen
  | OpenBracket
  | CloseBracket
  | OpenBrace
  | CloseBrace
  | Arrow
  | Define
  | Colon
  | ForkJoinAnd
  | ForkJoinXor
  | BangBang
  | Bang
  | Question
  | MinusPlus
  | Not
  | Plus
  | Minus
  | Slash
  | Div
  | Mod
  | Pow
  | Star
  | And
  | Or
  | LtEq
  | GtEq
  | NotEqual
  | Equal
  | Decompose
  | Eq
  | Lt
  | Gt
  | Semi
  | Comma
  | Dot
  | At
  | Unknown
  deriving Repr

/-- A raw token: kind plus consumed byte length (`lexer.rs`, `struct Token`).
The source is ASCII in every claim, so chars consumed equals bytes consumed. -/
structure Token where
  kind : TokenKind
  len : Nat
  deriving Repr

/-- First upcoming char of the cursor (`Cursor::first`), NUL at end of input. -/
def firstC (cs : List Char) : Char := cs.headD nulChar

/-- Second upcoming char of the cursor (`Cursor::second`). -/
def secondC (cs : List Char) : Char := (cs.drop 1).headD nulChar

/-- Third upcoming char of the cursor (`Cursor::third`). -/
def thirdC (cs : List Char) : Char := (cs.drop 2).headD nulChar

/-- Rust `Cursor::eat_while`: consume (drop) chars while the predicate holds,
stopping at end of input; returns the remaining stream. -/
def eatWhile (p : Char → Bool) : List Char → List Char
  | [] => []
  | c :: cs => if p c then eatWhile p cs else c :: cs

/-- Rust `Cursor::followed_by`: test whether the remaining input starts with
the given keyword suffix (the caller drops it on success). -/
def kwMatch (s : String) (cs : List Char) : Bool := s.toList.isPrefixOf cs

/-- Rust `Cursor::line_comment` (after the introducing chars were consumed). -/
def lineComment (cs : List Char) : List Char := eatWhile (fun ch => ch != '\n') cs

/-- Rust `Cursor::block_comment`, entered after `/` and `*` were consumed:
scan for the first unconsumed `*/`, carrying a terminated flag. -/
def blockComment : List Char → TokenKind × List Char
  | [] => (.BlockComment false, [])
  | c :: cs =>
    if c = '*' ∧ firstC cs = '/' then (.BlockComment true, cs.drop 1)
    else blockComment cs

/-- Rust `Cursor::string`, entered after the opening quote was consumed.
The escape flag records that the previous char was an unescaped backslash.
Note the newline test precedes the escape test, exactly as in the source. -/
def stringTok (escaped : Bool) : List Char → TokenKind × List Char
  | [] => (.String false, [])
  | c :: cs =>
    if c = '\n' then (.String false, cs)
    else if escaped then stringTok false cs
    else if c = '\\' then stringTok true cs
    else if c = Char.ofNat 34 then (.String true, cs)
    else stringTok false cs

/-- Rust `Cursor::variable`, entered after the introducing char was consumed. -/
def variableScan (cs : List Char) : List Char :=
  eatWhile (fun ch => ch == '_' || isAsciiAlphanumeric ch) cs

/-- Loop body of Rust `Cursor::functor`: eat an identifier run, then continue
past `.` when it is immediately followed by an ASCII lowercase letter.  Each
continue consumes two chars, so `cs.length` bounds the iterations; the fuel
pattern only makes that termination explicit. -/
def functorGo : Nat → List Char → List Char
  | 0, cs => cs
  | fuel + 1, cs =>
    let cs1 := eatWhile (fun ch => ch == '_' || isAsciiAlphanumeric ch) cs
    match cs1 with
    | '.' :: c2 :: rest => if isAsciiLower c2 then functorGo fuel rest else cs1
    | _ => cs1

/-- Rust `Cursor::functor`, entered after the introducing char was consumed. -/
def functorScan (cs : List Char) : List Char := functorGo (cs.length + 1) cs

/-- Rust `Cursor::number`, entered after the first digit was consumed: digit
run, optional fraction (only if `.` is immediately followed by a digit),
optional exponent (only if `e`/`E` is followed by an optional sign and a
digit). -/
def numberScan (cs : List Char) : TokenKind × List Char :=
  let cs1 := eatWhile isAsciiDigit cs
  let k1 := if firstC cs1 = '.' ∧ isAsciiDigit (secondC cs1) then TokenKind.Float
            else TokenKind.Integer
  let cs2 := if firstC cs1 = '.' ∧ isAsciiDigit (secondC cs1) then
               eatWhile isAsciiDigit (cs1.drop 2)
             else cs1
  if (firstC cs2 = 'e' ∨ firstC cs2 = 'E') ∧ (secondC cs2 = '+' ∨ secondC cs2 = '-')
      ∧ isAsciiDigit (thirdC cs2) then
    (.Float, eatWhile isAsciiDigit (cs2.drop 3))
  else if (firstC cs2 = 'e' ∨ firstC cs2 = 'E') ∧ isAsciiDigit (secondC cs2) then
    (.Float, eatWhile isAsciiDigit (cs2.drop 2))
  else (k1, cs2)

/-- Rust `Cursor::advance_token`: consume exactly one token, returning its kind
and the remaining stream.  The branches appear in the source's match-arm order;
guarded keyword arms use the prefix test `kwMatch` exactly as `followed_by`
does.  The `[]` case is unreachable (`tokenize` only calls on non-empty
input, matching the `bump().unwrap()`). -/
def advanceToken : List Char → TokenKind × List Char
  | [] => (.Unknown, [])
  | c :: cs =>
    if rustIsWhitespace c then (.Whitespace, eatWhile rustIsWhitespace cs)
    else if c = '/' then
      if firstC cs = '/' then (.LineComment, lineComment cs)
      else if firstC cs = '*' then blockComment (cs.drop 1)
      else (.Slash, cs)
    else if c = '#' then (.LineComment, lineComment cs)
    else if c = Char.ofNat 34 then stringTok false cs
    else if c = '(' then (.OpenParen, cs)
    else if c = ')' then (.CloseParen, cs)
    else if c = '[' then (.OpenBracket, cs)
    else if c = ']' then (.CloseBracket, cs)
    else if c = Char.ofNat 123 then (.OpenBrace, cs)
    else if c = Char.ofNat 125 then (.CloseBrace, cs)
    else if c = '!' then
      if firstC cs = '!' then (.BangBang, cs.drop 1) else (.Bang, cs)
    else if c = '?' then (.Question, cs)
    else if c = ':' then
      if firstC cs = '-' then (.Define, cs.drop 1) else (.Colon, cs)
    else if c = '<' then
      if firstC cs = '-' then (.Arrow, cs.drop 1)
      else if firstC cs = '=' then (.LtEq, cs.drop 1)
      else (.Lt, cs)
    else if c = '>' then
      if firstC cs = '=' then (.GtEq, cs.drop 1) else (.Gt, cs)
    else if c = '=' then
      if firstC cs = '=' then (.Equal, cs.drop 1)
      else if firstC cs = '.' ∧ secondC cs = '.' then (.Decompose, cs.drop 2)
      else (.Eq, cs)
    else if c = '*' then
      if firstC cs = '*' then (.Pow, cs.drop 1) else (.Star, cs)
    else if c = '-' then
      if firstC cs = '+' then (.MinusPlus, cs.drop 1) else (.Minus, cs)
    else if c = '&' then (.And, cs)
    else if c = '|' then
      if firstC cs = '&' ∧ secondC cs = '|' then (.ForkJoinAnd, cs.drop 2)
      else if firstC cs = '|' ∧ secondC cs = '|' then (.ForkJoinXor, cs.drop 2)
      else (.Or, cs)
    else if c = '+' then (.Plus, cs)
    else if c = '.' then
      if isAsciiLower (firstC cs) then (.Functor, functorScan (cs.drop 1))
      else (.Dot, cs)
    else if c = ',' then (.Comma, cs)
    else if c = ';' then (.Semi, cs)
    else if c = '@' then (.At, cs)
    else if c = '\\' ∧ kwMatch "==" cs then (.NotEqual, cs.drop 2)
    else if c = 't' ∧ kwMatch "rue" cs then (.True, cs.drop 3)
    else if c = 'f' ∧ kwMatch "alse" cs then (.False, cs.drop 4)
    else if c = 'i' ∧ kwMatch "f" cs then (.If, cs.drop 1)
    else if c = 'e' ∧ kwMatch "lse" cs then (.Else, cs.drop 3)
    else if c = 'w' ∧ kwMatch "hile" cs then (.While, cs.drop 4)
    else if c = 'f' ∧ kwMatch "or" cs then (.For, cs.drop 2)
    else if c = 'i' ∧ kwMatch "nclude" cs then (.Include, cs.drop 6)
    else if c = 'b' ∧ kwMatch "egin" cs then (.Begin, cs.drop 4)
    else if c = 'e' ∧ kwMatch "nd" cs then (.End, cs.drop 2)
    else if c = 'n' ∧ kwMatch "ot" cs then (.Not, cs.drop 2)
    else if c = 'd' ∧ kwMatch "iv" cs then (.Div, cs.drop 2)
    else if c = 'm' ∧ kwMatch "od" cs then (.Mod, cs.drop 2)
    else if isAsciiUpper c then (.Variable, variableScan cs)
    else if isAsciiLower c then (.Functor, functorScan cs)
    else if isAsciiDigit c then numberScan cs
    else if c = '_' then
      let cs1 := eatWhile (fun ch => ch == '_') cs
      if isAsciiUpper (firstC cs1) then (.Variable, variableScan (cs1.drop 1))
      else (.Wildcard, cs1)
    else (.Unknown, cs)

/-- Loop body of Rust `tokenize`: repeatedly advance one token until the cursor
is exhausted, recording each token's kind and consumed length.  Each step
consumes at least one char, so `cs.length` fuel always suffices. -/
def tokenizeGo : Nat → List Char → List Token
  | 0, _ => []
  | _ + 1, [] => []
  | fuel + 1, c :: rest =>
    ⟨(advanceToken (c :: rest)).1, (c :: rest).length - (advanceToken (c :: rest)).2.length⟩
      :: tokenizeGo fuel (advanceToken (c :: rest)).2

/-- Rust `tokenize`, driven to exhaustion (the lexed stream consumes it once). -/
def tokenizeList (cs : List Char) : List Token := tokenizeGo cs.length cs

set_option maxHeartbeats 1600000 in
/-- Unified terminal/non-terminal kind space (`syntax.rs`, `enum SyntaxKind`). -/
inductive SyntaxKind where
  | Whitespace
  | LineComment
  | BlockComment
  | Functor
  | Variable
  | Wildcard
  | Integer
  | Float
  | String
  | True
  | False
  | If
  | Else
  | While
  | For
  | Include
  | Begin
  | End
  | OpenParen
  | CloseParen
  | OpenBracket
  | CloseBracket
  | OpenBrace
  | CloseBrace
  | Arrow
  | Define
  | Colon
  | ForkJoinAnd
  | ForkJoinXor
  | BangBang
  | Bang
  | Question
  | MinusPlus
  | Not
  | Tilde
  | Plus
  | Minus
  | Slash
  | Div
  | Mod
  | Pow
  | Star
  | And
  | Or
  | LtEq
  | GtEq
  | NotEqual
  | Equal
  | Decompose
  | Eq
  | Lt
  | Gt
  | Semi
  | Comma
  | Dot
  | At
  | Error
  | Eof
  | Belief
  | Rule
  | InitialGoal
  | Plan
  | PlanAnnotation
  | PlanContext
  | Body
  | Formula
  | Literal
  | LiteralTerms
  | LiteralAnnotations
  | Disjunction
  | Conjunction
  | Negation
  | Comparison
  | AdditiveExpression
  | MultiplicativeExpression
  | UnaryExpression
  | PowerExpression
  | Exponentiation
  | Atom
  | List
  | WhileLoop
  | ForLoop
  | IfThenElse
  | Root
  deriving DecidableEq, Repr

/-- Comparison operators (`syntax.rs`, `enum ComparisonOperator`). -/
inductive ComparisonOperator where
  | LtEq | GtEq | NotEqual | Equal | Decompose | Eq | Lt | Gt
  deriving DecidableEq, Repr

/-- Formula types (`syntax.rs`, `enum FormulaType`). -/
inductive FormulaType where
  | AchieveLater | Achieve | Test | Replace | Remove | Add | Term
  deriving DecidableEq, Repr

/-- Additive operators (`syntax.rs`, `enum AdditiveOperator`). -/
inductive AdditiveOperator where
  | Add | Sub
  deriving DecidableEq, Repr

/-- Multiplicative operators (`syntax.rs`, `enum MultiplicativeOperator`). -/
inductive MultiplicativeOperator where
  | Mul | Div | FloorDiv | Mod
  deriving DecidableEq, Repr

/-- Unary operators (`syntax.rs`, `enum UnaryOperator`). -/
inductive UnaryOperator where
  | Pos | Neg
  deriving DecidableEq, Repr

/-- Rust `SyntaxKind::comparison_operator`. -/
def SyntaxKind.comparisonOperator : SyntaxKind → Option ComparisonOperator
  | .LtEq => some .LtEq
  | .GtEq => some .GtEq
  | .NotEqual => some .NotEqual
  | .Equal => some .Equal
  | .Decompose => some .Decompose
  | .Eq => some .Eq
  | .Lt => some .Lt
  | .Gt => some .Gt
  | _ => none

/-- Rust `SyntaxKind::additive_operator`. -/
def SyntaxKind.additiveOperator : SyntaxKind → Option AdditiveOperator
  | .Plus => some .Add
  | .Minus => some .Sub
  | _ => none

/-- Rust `SyntaxKind::multiplicative_operator`. -/
def SyntaxKind.multiplicativeOperator : SyntaxKind → Option MultiplicativeOperator
  | .Star => some .Mul
  | .Slash => some .Div
  | .Div => some .FloorDiv
  | .Mod => some .Mod
  | _ => none

/-- Rust `SyntaxKind::unary_operator`. -/
def SyntaxKind.unaryOperator : SyntaxKind → Option UnaryOperator
  | .Plus => some .Pos
  | .Minus => some .Neg
  | _ => none

/-- Rust `SyntaxKind::formula_type`. -/
def SyntaxKind.formulaType : SyntaxKind → Option FormulaType
  | .BangBang => some .AchieveLater
  | .Bang => some .Achieve
  | .Question => some .Test
  | .MinusPlus => some .Replace
  | .Plus => some .Add
  | .Minus => some .Remove
  | _ => none

/-- Rust `Debug` output for a `SyntaxKind` (the derived `{:?}` formatting,
used by the parser's `format!` error messages). -/
def debugStr : SyntaxKind → String
  | .Whitespace => "Whitespace"
  | .LineComment => "LineComment"
  | .BlockComment => "BlockComment"
  | .Functor => "Functor"
  | .Variable => "Variable"
  | .Wildcard => "Wildcard"
  | .Integer => "Integer"
  | .Float => "Float"
  | .String => "String"
  | .True => "True"
  | .False => "False"
  | .If => "If"
  | .Else => "Else"
  | .While => "While"
  | .For => "For"
  | .Include => "Include"
  | .Begin => "Begin"
  | .End => "End"
  | .OpenParen => "OpenParen"
  | .CloseParen => "CloseParen"
  | .OpenBracket => "OpenBracket"
  | .CloseBracket => "CloseBracket"
  | .OpenBrace => "OpenBrace"
  | .CloseBrace => "CloseBrace"
  | .Arrow => "Arrow"
  | .Define => "Define"
  | .Colon => "Colon"
  | .ForkJoinAnd => "ForkJoinAnd"
  | .ForkJoinXor => "ForkJoinXor"
  | .BangBang => "BangBang"
  | .Bang => "Bang"
  | .Question => "Question"
  | .MinusPlus => "MinusPlus"
  | .Not => "Not"
  | .Tilde => "Tilde"
  | .Plus => "Plus"
  | .Minus => "Minus"
  | .Slash => "Slash"
  | .Div => "Div"
  | .Mod => "Mod"
  | .Pow => "Pow"
  | .Star => "Star"
  | .And => "And"
  | .Or => "Or"
  | .LtEq => "LtEq"
  | .GtEq => "GtEq"
  | .NotEqual => "NotEqual"
  | .Equal => "Equal"
  | .Decompose => "Decompose"
  | .Eq => "Eq"
  | .Lt => "Lt"
  | .Gt => "Gt"
  | .Semi => "Semi"
  | .Comma => "Comma"
  | .Dot => "Dot"
  | .At => "At"
  | .Error => "Error"
  | .Eof => "Eof"
  | .Belief => "Belief"
  | .Rule => "Rule"
  | .InitialGoal => "InitialGoal"
  | .Plan => "Plan"
  | SyntaxKind.PlanAnnotation => "PlanAnnotation"
  | .PlanContext => "PlanContext"
  | .Body => "Body"
  | .Formula => "Formula"
  | .Literal => "Literal"
  | .LiteralTerms => "LiteralTerms"
  | .LiteralAnnotations => "LiteralAnnotations"
  | .Disjunction => "Disjunction"
  | .Conjunction => "Conjunction"
  | .Negation => "Negation"
  | .Comparison => "Comparison"
  | .AdditiveExpression => "AdditiveExpression"
  | .MultiplicativeExpression => "MultiplicativeExpression"
  | .UnaryExpression => "UnaryExpression"
  | .PowerExpression => "PowerExpression"
  | .Exponentiation => "Exponentiation"
  | .Atom => "Atom"
  | .List => "List"
  | .WhileLoop => "WhileLoop"
  | .ForLoop => "ForLoop"
  | .IfThenElse => "IfThenElse"
  | .Root => "Root"

/-- Lexical error kinds recorded by `LexedStr::new` (`syntax.rs`,
`enum SyntaxErrorKind`). -/
inductive LexErrKind where
  | UnterminatedBlockComment
  | UnterminatedString
  | UnexpectedToken
  deriving DecidableEq, Repr

/-- Classification of a raw token kind into the unified kind space, performed
by the match inside `LexedStr::new` (`syntax.rs`, lines 274-366). -/
def toSyntaxKind : TokenKind → SyntaxKind
  | .Whitespace => .Whitespace
  | .LineComment => .LineComment
  | .BlockComment _ => .BlockComment
  | .Functor => .Functor
  | .Variable => .Variable
  | .Wildcard => .Wildcard
  | .Integer => .Integer
  | .Float => .Float
  | .String _ => .String
  | .True => .True
  | .False => .False
  | .If => .If
  | .Else => .Else
  | .While => .While
  | .For => .For
  | .Include => .Include
  | .Begin => .Begin
  | .End => .End
  | .OpenParen => .OpenParen
  | .CloseParen => .CloseParen
  | .OpenBracket => .OpenBracket
  | .CloseBracket => .CloseBracket
  | .OpenBrace => .OpenBrace
  | .CloseBrace => .CloseBrace
  | .Arrow => .Arrow
  | .Define => .Define
  | .Colon => .Colon
  | .ForkJoinAnd => .ForkJoinAnd
  | .ForkJoinXor => .ForkJoinXor
  | .BangBang => .BangBang
  | .Bang => .Bang
  | .Question => .Question
  | .MinusPlus => .MinusPlus
  | .Not => .Not
  | .Plus => .Plus
  | .Minus => .Minus
  | .Slash => .Slash
  | .Div => .Div
  | .Mod => .Mod
  | .Pow => .Pow
  | .Star => .Star
  | .And => .And
  | .Or => .Or
  | .LtEq => .LtEq
  | .GtEq => .GtEq
  | .NotEqual => .NotEqual
  | .Equal => .Equal
  | .Decompose => .Decompose
  | .Eq => .Eq
  | .Lt => .Lt
  | .Gt => .Gt
  | .Semi => .Semi
  | .Comma => .Comma
  | .Dot => .Dot
  | .At => .At
  | .Unknown => .Error

/-- The lexical error, if any, that `LexedStr::new` records for a raw token. -/
def lexErrOf : TokenKind → Option LexErrKind
  | .BlockComment false => some .UnterminatedBlockComment
  | .String false => some .UnterminatedString
  | .Unknown => some .UnexpectedToken
  | _ => none

/-- The `start` offset table of `LexedStr::new`: one offset per token, then the
final offset pushed twice more (end-of-file sentinel start and table end),
mirroring the two trailing `res.start.push(offset)` calls. -/
def startsAux (offset : Nat) : List Token → List Nat
  | [] => [offset, offset]
  | t :: ts => offset :: startsAux (offset + t.len) ts

/-- The complete `start` table of the `LexedStr` built from the input. -/
def lexedStarts (cs : List Char) : List Nat := startsAux 0 (tokenizeList cs)

/-- The `kind` table of the `LexedStr`, with the trailing `Eof` sentinel. -/
def lexedKinds (cs : List Char) : List SyntaxKind :=
  (tokenizeList cs).map (fun t => toSyntaxKind t.kind) ++ [SyntaxKind.Eof]

/-- The lexical errors of the `LexedStr`, each tagged with its token index. -/
def lexedErrorsAux (idx : Nat) : List Token → List (LexErrKind × Nat)
  | [] => []
  | t :: ts =>
    match lexErrOf t.kind with
    | some e => (e, idx) :: lexedErrorsAux (idx + 1) ts
    | none => lexedErrorsAux (idx + 1) ts

/-- The `errors` list of the `LexedStr` built from the input. -/
def lexedErrors (cs : List Char) : List (LexErrKind × Nat) :=
  lexedErrorsAux 0 (tokenizeList cs)

/-- Pair each token with the text it consumed, slicing the source in order
(this realizes `LexedStr::token_range` composed with the text). -/
def sliceTokens (cs : List Char) : List Token → List (TokenKind × List Char)
  | [] => []
  | t :: ts => (t.kind, cs.take t.len) :: sliceTokens (cs.drop t.len) ts

/-- The token stream the parser consumes through `LexedStrIter`: classified
kind plus source text per token, excluding the `Eof` sentinel (the iterator
stops at `LexedStr::len`, which excludes it). -/
def pTokens (input : String) : List (SyntaxKind × String) :=
  (sliceTokens input.toList (tokenizeList input.toList)).map
    (fun p => (toSyntaxKind p.1, String.mk p.2))

/-- Concatenate the slices of the source given by consecutive offsets of the
table: for offsets `[a, b, c, ...]` this is `cs[a..b] ++ cs[b..c] ++ ...`. -/
def sliceJoin (cs : List Char) : List Nat → List Char
  | a :: b :: rest => (cs.drop a).take (b - a) ++ sliceJoin cs (b :: rest)
  | _ => []

/-- Sum of the lengths of a token list. -/
def sumLens (ts : List Token) : Nat := (ts.map Token.len).sum

/-- A green-tree element: interior node (grammar kind + children) or leaf token
(terminal kind + exact source text), as built by `rowan::GreenNodeBuilder`. -/
inductive Element where
  | node (kind : SyntaxKind) (children : List Element)
  | token (kind : SyntaxKind) (text : String)
  deriving Repr

/-- The builder state of `rowan::GreenNodeBuilder`: a stack of open nodes
(kind plus index of their first child in the flat pending-children buffer) and
that flat buffer.  A checkpoint is a position in the buffer; `startNodeAt`
later adopts every sibling appended since as a child of the new node. -/
structure Builder where
  parents : List (SyntaxKind × Nat)
  children : List Element
  deriving Repr

/-- Append a leaf token (`GreenNodeBuilder::token`). -/
def Builder.addToken (b : Builder) (k : SyntaxKind) (text : String) : Builder :=
  { b with children := b.children ++ [Element.token k text] }

/-- Take a checkpoint (`GreenNodeBuilder::checkpoint`): the current length of
the pending-children buffer. -/
def Builder.checkpoint (b : Builder) : Nat := b.children.length

/-- Open a node retroactively at a checkpoint (`start_node_at`). -/
def Builder.startNodeAt (b : Builder) (cp : Nat) (k : SyntaxKind) : Builder :=
  { b with parents := (k, cp) :: b.parents }

/-- Open a node at the current position (`start_node`). -/
def Builder.startNode (b : Builder) (k : SyntaxKind) : Builder :=
  b.startNodeAt b.checkpoint k

/-- Close the innermost open node (`finish_node`): every pending child from the
node's first-child index onward becomes a child of the new node, which replaces
them in the buffer.  Popping with no open node is builder misuse and cannot
happen through the public entry point; it is modelled as a no-op. -/
def Builder.finishNode (b : Builder) : Builder :=
  match b.parents with
  | [] => b
  | (k, first) :: ps =>
    { parents := ps,
      children := b.children.take first ++ [Element.node k (b.children.drop first)] }

/-- The parser errors (`parser.rs`, `struct ParserError`): message plus the
index of the token the cursor was at. -/
structure PError where
  message : String
  tokenIdx : Nat
  deriving Repr

/-- The mutable state of `Parser`: the builder, the remaining token stream of
the `LexedStrIter` together with the current token index, the collected
errors, and the unexpected-eof flag. -/
structure PState where
  builder : Builder
  toks : List (SyntaxKind × String)
  pos : Nat
  errors : List PError
  eof : Bool
  deriving Repr

/-- Result of running a parser procedure with fuel: a final state, a panic
(`assert` failure or unimplemented feature), or fuel exhaustion.  Because every
recursive call of the source consumes exactly one unit of fuel, a procedure
that returns `noFuel` for every fuel models a non-terminating run. -/
inductive PRes where
  | ok (s : PState)
  | panicked
  | noFuel
  deriving Repr

/-- Sequencing of fuelled parser steps; panics and fuel exhaustion abort. -/
def PRes.bind : PRes → (PState → PRes) → PRes
  | .ok s, f => f s
  | .panicked, _ => .panicked
  | .noFuel, _ => .noFuel

/-- Map a state transformation over a parser result. -/
def PRes.map : PRes → (PState → PState) → PRes
  | .ok s, f => .ok (f s)
  | .panicked, _ => .panicked
  | .noFuel, _ => .noFuel

/-- Apply a builder transformation to the state. -/
def PState.withB (s : PState) (f : Builder → Builder) : PState :=
  { s with builder := f s.builder }

/-- Rust `Parser::push_error`: append an error tagged with the cursor's
current token index. -/
def PState.pushError (s : PState) (msg : String) : PState :=
  { s with errors := s.errors ++ [⟨msg, s.pos⟩] }

/-- Noise tokens, skipped for control decisions (`Parser::skip_noise`). -/
def isNoise (k : SyntaxKind) : Bool :=
  k == .Whitespace || k == .LineComment || k == .BlockComment

/-- Loop of `Parser::skip_noise`: bump noise tokens into the tree until the
stream is exhausted or a non-noise token is current. -/
def skipNoiseGo (b : Builder) (pos : Nat) :
    List (SyntaxKind × String) → Builder × Nat × List (SyntaxKind × String)
  | [] => (b, pos, [])
  | (k, t) :: rest =>
    if isNoise k then skipNoiseGo (b.addToken k t) (pos + 1) rest
    else (b, pos, (k, t) :: rest)

/-- Rust `Parser::skip_noise` on the state. -/
def PState.skipNoise (s : PState) : PState :=
  let r := skipNoiseGo s.builder s.pos s.toks
  { s with builder := r.1, pos := r.2.1, toks := r.2.2 }

/-- The kind of the current (head) token, `None` at exhaustion; after a
`skipNoise` this is exactly what `Parser::current` returns. -/
def PState.headKind (s : PState) : Option SyntaxKind := s.toks.head?.map Prod.fst

/-- Rust `Parser::bump`: move the next token from the stream into the tree.
Every call site is guarded by a preceding `current` check, so the stream is
never empty here (matching the `next().unwrap()`); the empty case is modelled
as a no-op. -/
def PState.bump (s : PState) : PState :=
  match s.toks with
  | [] => s
  | (k, t) :: rest =>
    { s with builder := s.builder.addToken k t, toks := rest, pos := s.pos + 1 }

/-- Loop of `Parser::recover`: while a token is current, stop before consuming
it when the exclusive predicate fires, otherwise consume it and stop when the
inclusive predicate fires.  Every iteration consumes a token, so any fuel
exceeding the stream length is sufficient. -/
def recoverGo : Nat → (SyntaxKind → Bool) → (SyntaxKind → Bool) → PState → PRes
  | 0, _, _, _ => .noFuel
  | fuel + 1, untilIncl, untilExcl, s =>
    let s := s.skipNoise
    match s.headKind with
    | none => .ok s
    | some k =>
      if untilExcl k then .ok s
      else
        let s := s.bump
        if untilIncl k then .ok s
        else recoverGo fuel untilIncl untilExcl s

/-- Rust `Parser::recover`: record the error, open an `Error` node, run the
bounded skip loop, close the `Error` node. -/
def recover (fuel : Nat) (msg : String) (untilIncl untilExcl : SyntaxKind → Bool)
    (s : PState) : PRes :=
  (recoverGo fuel untilIncl untilExcl
      ((s.pushError msg).withB (fun b => b.startNode .Error))).map
    (fun s => s.withB Builder.finishNode)

/-- Call tags naming each parser procedure of `parser.rs` (and the inner
loops of the procedures, with the loop-invariant checkpoint as payload). -/
inductive PCall where
  | topLoop
  | ruleOrBelief
  | initialGoal
  | plan
  | planAnnotLoop
  | planBodyLoop
  | formula
  | literal
  | literalAfter
  | commaLoop
  | term
  | termLoop (cp : Nat)
  | conjunction
  | conjLoop (cp : Nat)
  | negation
  | comparison
  | additive
  | addLoop (cp : Nat)
  | multiplicative
  | multLoop (cp : Nat)
  | unary
  | exponentiation
  | expLoop (cp : Nat)
  | atom
  deriving Repr

/-- One fuel-indexed step function covering all mutually recursive parser
procedures of `parser.rs`; each Rust call becomes a `run` call with fuel
decremented by one.  Every use of the mutating `Parser::current` is modelled
as a `skipNoise` followed by reading `headKind`. -/
def run : Nat → PCall → PState → PRes
  | 0, _, _ => .noFuel
  | fuel + 1, c, s =>
    match c with
    | .topLoop =>
      let s := s.skipNoise
      match s.headKind with
      | none => .ok s
      | some k =>
        (match k with
         | .Functor => run fuel .ruleOrBelief s
         | .Bang => run fuel .initialGoal s
         | .At | .Plus | .Minus => run fuel .plan s
         | _ => recover fuel ("unexpected token " ++ debugStr k)
                  (fun t => t == .Dot) (fun _ => false) s
         : PRes
        ).bind (run fuel .topLoop)
    | .ruleOrBelief =>
      let cp := s.builder.checkpoint
      (run fuel .literal s).bind fun s =>
      let s := s.skipNoise
      (if s.headKind = some .Define then
         let s := (s.withB (fun b => b.startNodeAt cp .Rule)).bump
         run fuel .term s
       else
         .ok (s.withB (fun b => b.startNodeAt cp .Belief))
      ).bind fun s =>
      let s := s.skipNoise
      (if s.headKind = some .Dot then .ok s.bump
       else recover fuel "expected '.' after rule or belief"
              (fun t => t == .Dot) (fun _ => false) s
      ).map (fun s => s.withB Builder.finishNode)
    | .initialGoal =>
      let s := s.withB (fun b => b.startNode .InitialGoal)
      let s := s.skipNoise
      if s.headKind = some .Bang then
        let s := s.bump
        let s := s.skipNoise
        match s.headKind with
        | some .Functor =>
          (run fuel .literal s).bind fun s =>
          let s := s.skipNoise
          match s.headKind with
          | some .Dot => .ok (s.bump.withB Builder.finishNode)
          | some k =>
            (recover fuel ("expected '.' after initial goal, got " ++ debugStr k)
                (fun t => t == .Dot) (fun _ => false) s).map
              (fun s => s.withB Builder.finishNode)
          | none => .ok ({ s with eof := true }.withB Builder.finishNode)
        | some k =>
          (recover fuel ("expected functor after '!', got " ++ debugStr k)
              (fun t => t == .Dot) (fun _ => false) s).map
            (fun s => s.withB Builder.finishNode)
        | none => .ok ({ s with eof := true }.withB Builder.finishNode)
      else .panicked
    | .plan =>
      let s := s.withB (fun b => b.startNode .Plan)
      (run fuel .planAnnotLoop s).bind fun s =>
      let s := s.skipNoise
      let s := if s.headKind = some .Plus ∨ s.headKind = some .Minus then s.bump
               else s.pushError "expected '+' or '-' for plan trigger"
      let s := s.skipNoise
      let s := if s.headKind = some .Bang then s.bump else s
      (run fuel .literal s).bind fun s =>
      let s := s.skipNoise
      (if s.headKind = some .Colon then
         let s := s.bump.withB (fun b => b.startNode .PlanContext)
         (run fuel .term s).map (fun s => s.withB Builder.finishNode)
       else .ok s
      ).bind fun s =>
      let s := s.skipNoise
      (if s.headKind = some .Arrow then
         let s := s.bump.withB (fun b => b.startNode .Body)
         (run fuel .planBodyLoop s).map (fun s => s.withB Builder.finishNode)
       else .ok s
      ).map (fun s => s.withB Builder.finishNode)
    | .planAnnotLoop =>
      let s := s.skipNoise
      if s.headKind = some .At then
        let s := (s.withB (fun b => b.startNode SyntaxKind.PlanAnnotation)).bump
        (run fuel .literal s).bind fun s =>
        run fuel .planAnnotLoop (s.withB Builder.finishNode)
      else .ok s
    | .planBodyLoop =>
      (run fuel .formula s).bind fun s =>
      let s := s.skipNoise
      match s.headKind with
      | some .Semi => run fuel .planBodyLoop s.bump
      | some .Dot => .ok s.bump
      | some k =>
        (recover fuel ("expected ';' or '.', got " ++ debugStr k)
            (fun _ => false) (fun t => t == .Semi || t == .Dot) s).bind fun s =>
        run fuel .planBodyLoop s
      | none => .ok { s with eof := true }
    | .formula =>
      let s := s.withB (fun b => b.startNode .Formula)
      let s := s.skipNoise
      (match s.headKind with
       | some k =>
         if k.formulaType.isSome then .ok s.bump
         else if k = .While ∨ k = .If ∨ k = .For then .panicked
         else .ok s
       | none => .ok { s with eof := true }
       : PRes
      ).bind fun s =>
      (run fuel .term s).map (fun s => s.withB Builder.finishNode)
    | .literal =>
      let s := s.withB (fun b => b.startNode .Literal)
      let s := s.skipNoise
      match s.headKind with
      | some .Functor => run fuel .literalAfter s.bump
      | some k =>
        (recover fuel ("expected literal, got " ++ debugStr k)
            (fun _ => false) (fun t => t == .Dot || t == .Semi) s).map
          (fun s => s.withB Builder.finishNode)
      | none => run fuel .literalAfter { s with eof := true }
    | .literalAfter =>
      let s := s.skipNoise
      (if s.headKind = some .OpenParen then
         let s := (s.withB (fun b => b.startNode .LiteralTerms)).bump
         (run fuel .term s).bind fun s =>
         (run fuel .commaLoop s).bind fun s =>
         let s := s.skipNoise
         (match s.headKind with
          | some .CloseParen => .ok s.bump
          | some k =>
            recover fuel ("expected ')' to close literal, got " ++ debugStr k)
              (fun t => t == .CloseParen) (fun t => t == .Dot || t == .Semi) s
          | none => .ok { s with eof := true }
          : PRes
         ).map (fun s => s.withB Builder.finishNode)
       else .ok s
      ).bind fun s =>
      let s := s.skipNoise
      (if s.headKind = some .OpenBracket then
         let s := (s.withB (fun b => b.startNode .LiteralAnnotations)).bump
         let s := s.skipNoise
         (if s.headKind ≠ some .CloseBracket then
            (run fuel .term s).bind fun s =>
            (run fuel .commaLoop s).bind fun s =>
            let s := s.skipNoise
            (match s.headKind with
             | some .CloseBracket => .ok s.bump
             | some k =>
               recover fuel ("expected ']' to close literal annotation, got " ++ debugStr k)
                 (fun t => t == .CloseBracket) (fun t => t == .Dot || t == .Semi) s
             | none => .ok { s with eof := true }
             : PRes)
          else .ok s
         ).map (fun s => s.withB Builder.finishNode)
       else .ok s
      ).map (fun s => s.withB Builder.finishNode)
    | .commaLoop =>
      let s := s.skipNoise
      if s.headKind = some .Comma then
        (run fuel .term s.bump).bind fun s => run fuel .commaLoop s
      else .ok s
    | .term =>
      let cp := s.builder.checkpoint
      (run fuel .conjunction s).bind fun s => run fuel (.termLoop cp) s
    | .termLoop cp =>
      let s := s.skipNoise
      if s.headKind = some .Or then
        let s := (s.withB (fun b => b.startNodeAt cp .Disjunction)).bump
        (run fuel .conjunction s).bind fun s =>
        run fuel (.termLoop cp) (s.withB Builder.finishNode)
      else .ok s
    | .conjunction =>
      let cp := s.builder.checkpoint
      (run fuel .negation s).bind fun s => run fuel (.conjLoop cp) s
    | .conjLoop cp =>
      let s := s.skipNoise
      if s.headKind = some .And then
        let s := (s.withB (fun b => b.startNodeAt cp .Conjunction)).bump
        (run fuel .negation s).bind fun s =>
        run fuel (.conjLoop cp) (s.withB Builder.finishNode)
      else .ok s
    | .negation =>
      let s := s.skipNoise
      if s.headKind = some .Not then
        let s := s.withB (fun b => b.startNode .Negation)
        (run fuel .negation s).map (fun s => s.withB Builder.finishNode)
      else run fuel .comparison s
    | .comparison =>
      let cp := s.builder.checkpoint
      (run fuel .additive s).bind fun s =>
      let s := s.skipNoise
      if (s.headKind.bind SyntaxKind.comparisonOperator).isSome then
        let s := (s.withB (fun b => b.startNodeAt cp .Comparison)).bump
        (run fuel .additive s).map (fun s => s.withB Builder.finishNode)
      else .ok s
    | .additive =>
      let cp := s.builder.checkpoint
      (run fuel .multiplicative s).bind fun s => run fuel (.addLoop cp) s
    | .addLoop cp =>
      let s := s.skipNoise
      if (s.headKind.bind SyntaxKind.additiveOperator).isSome then
        let s := (s.withB (fun b => b.startNodeAt cp .AdditiveExpression)).bump
        (run fuel .multiplicative s).bind fun s =>
        run fuel (.addLoop cp) (s.withB Builder.finishNode)
      else .ok s
    | .multiplicative =>
      let cp := s.builder.checkpoint
      (run fuel .unary s).bind fun s => run fuel (.multLoop cp) s
    | .multLoop cp =>
      let s := s.skipNoise
      if (s.headKind.bind SyntaxKind.multiplicativeOperator).isSome then
        let s := (s.withB (fun b => b.startNodeAt cp .MultiplicativeExpression)).bump
        (run fuel .unary s).bind fun s =>
        run fuel (.multLoop cp) (s.withB Builder.finishNode)
      else .ok s
    | .unary =>
      let s := s.skipNoise
      if (s.headKind.bind SyntaxKind.unaryOperator).isSome then
        let s := (s.withB (fun b => b.startNode .UnaryExpression)).bump
        (run fuel .unary s).map (fun s => s.withB Builder.finishNode)
      else run fuel .exponentiation s
    | .exponentiation =>
      let cp := s.builder.checkpoint
      (run fuel .atom s).bind fun s => run fuel (.expLoop cp) s
    | .expLoop cp =>
      let s := s.skipNoise
      if s.headKind = some .Pow then
        let s := (s.withB (fun b => b.startNodeAt cp .Exponentiation)).bump
        (run fuel .unary s).bind fun s =>
        run fuel (.expLoop cp) (s.withB Builder.finishNode)
      else .ok s
    | .atom =>
      let s := s.skipNoise
      match s.headKind with
      | some k =>
        if k = .Variable ∨ k = .Wildcard ∨ k = .Integer ∨ k = .Float ∨ k = .True
            ∨ k = .False ∨ k = .String then .ok s.bump
        else if k = .Functor then run fuel .literal s
        else if k = .OpenBracket then .panicked
        else if k = .OpenParen then
          let s := s.bump
          (run fuel .term s).bind fun s =>
          let s := s.skipNoise
          match s.headKind with
          | some .CloseParen => .ok s.bump
          | some k =>
            recover fuel ("expected ')', got " ++ debugStr k)
              (fun t => t == .CloseParen) (fun t => t == .Semi || t == .Dot) s
          | none => .ok { s with eof := true }
        else
          recover fuel ("expected atom, got " ++ debugStr k) (fun _ => false)
            (fun t => t == .Semi || t == .Dot || t == .CloseParen) s
      | none => .ok { s with eof := true }

/-- A fresh parser state over a given token stream. -/
def initPState (toks : List (SyntaxKind × String)) : PState :=
  { builder := { parents := [], children := [] }, toks := toks, pos := 0,
    errors := [], eof := false }

/-- Rust `Parser::parse` via the public entry `parse`: open the `Root` node,
run the top-level dispatch loop to exhaustion, close the `Root` node. -/
def parseProgram (fuel : Nat) (toks : List (SyntaxKind × String)) : PRes :=
  (run fuel .topLoop ((initPState toks).withB (fun b => b.startNode .Root))).map
    (fun s => s.withB Builder.finishNode)

/-- The pending tree elements of a finished run (for the whole-program entry
this is the single `Root` node, `GreenNodeBuilder::finish`). -/
def resTree : PRes → Option (List Element)
  | .ok s => some s.builder.children
  | _ => none

/-- The syntactic errors of a finished run. -/
def resErrors : PRes → Option (List PError)
  | .ok s => some s.errors
  | _ => none

/-- Whether a finished run produced no syntactic error. -/
def resErrorsEmpty : PRes → Option Bool
  | .ok s => some s.errors.isEmpty
  | _ => none

/-- The remaining (unconsumed) tokens of a finished run. -/
def resToks : PRes → Option (List (SyntaxKind × String))
  | .ok s => some s.toks
  | _ => none

/-- Fuelled containment test: does the element or any descendant carry the
given kind?  Fuel bounds the tree depth. -/
def hasKindFuel : Nat → Element → SyntaxKind → Bool
  | 0, _, _ => false
  | _ + 1, .token k _, target => k == target
  | fuel + 1, .node k cs, target =>
    k == target || cs.any (fun e => hasKindFuel fuel e target)

/-- Whether any element of a finished run's tree contains the kind. -/
def resHasKind (r : PRes) (target : SyntaxKind) : Option Bool :=
  (resTree r).map (fun es => es.any (fun e => hasKindFuel 32 e target))

/-- The initial parser state over the tokens of the input `a:-not b.`, with the
`Root` node opened — the state from which the public entry starts. -/
def c1Start : PState :=
  (initPState (pTokens "a:-not b.")).withB (fun b => b.startNode SyntaxKind.Root)

/-- The parser state at the moment `parse_negation` is first entered while
parsing `a:-not b.`: the rule head and `:-` are consumed, `Rule` and `Root`
are open, and the cursor stands on the `not` token. -/
def c1AtNegation : PState :=
  ⟨⟨[(SyntaxKind.Rule, 0), (SyntaxKind.Root, 0)],
    [Element.node SyntaxKind.Literal [Element.token SyntaxKind.Functor "a"],
     Element.token SyntaxKind.Define ":-"]⟩,
   [(SyntaxKind.Not, "not"), (SyntaxKind.Whitespace, " "),
    (SyntaxKind.Functor, "b"), (SyntaxKind.Dot, ".")],
   2, [], false⟩

/-- Bounding an if-then-else of naturals by bounding both branches. -/
theorem ite_le_bound {c : Prop} [Decidable c] {a b n : Nat} (ha : a ≤ n) (hb : b ≤ n) :
    (if c then a else b) ≤ n := by
  split
  · exact ha
  · exact hb

/-- The eat-while loop never grows the stream. -/
theorem eatWhile_length_le (p : Char → Bool) :
    ∀ cs : List Char, (eatWhile p cs).length ≤ cs.length := by
  intro cs
  induction cs with
  | nil => simp [eatWhile]
  | cons c cs ih =>
    simp only [eatWhile]
    split
    · exact Nat.le_trans ih (by simp)
    · simp

/-- Block-comment scanning never grows the stream. -/
theorem blockComment_length_le :
    ∀ cs : List Char, ((blockComment cs).2).length ≤ cs.length := by
  intro cs
  induction cs with
  | nil => simp [blockComment]
  | cons c cs ih =>
    simp only [blockComment]
    split
    · simp [List.length_drop]; omega
    · exact Nat.le_trans ih (by simp)

/-- String scanning never grows the stream. -/
theorem stringTok_length_le :
    ∀ (cs : List Char) (esc : Bool), ((stringTok esc cs).2).length ≤ cs.length := by
  intro cs
  induction cs with
  | nil => intro esc; simp [stringTok]
  | cons c cs ih =>
    intro esc
    simp only [stringTok]
    split
    · simp
    · split
      · exact Nat.le_trans (ih false) (by simp)
      · split
        · exact Nat.le_trans (ih true) (by simp)
        · split
          · simp
          · exact Nat.le_trans (ih false) (by simp)

/-- The dotted-functor loop never grows the stream. -/
theorem functorGo_length_le :
    ∀ (fuel : Nat) (cs : List Char), (functorGo fuel cs).length ≤ cs.length := by
  intro fuel
  induction fuel with
  | zero => intro cs; simp [functorGo]
  | succ n ih =>
    intro cs
    simp only [functorGo]
    have h1 := eatWhile_length_le (fun ch => ch == '_' || isAsciiAlphanumeric ch) cs
    split
    · next heq =>
      split
      · next =>
        rename_i rest _
        have h2 : (functorGo n rest).length ≤ rest.length := ih rest
        have h3 : rest.length + 2 ≤ cs.length := by
          rw [heq] at h1; simp at h1; omega
        omega
      · exact h1
    · exact h1

/-- Functor scanning never grows the stream. -/
theorem functorScan_length_le (cs : List Char) : (functorScan cs).length ≤ cs.length :=
  functorGo_length_le (cs.length + 1) cs

/-- Number scanning never grows the stream. -/
theorem numberScan_length_le (cs : List Char) : ((numberScan cs).2).length ≤ cs.length := by
  simp only [numberScan]
  have hA := eatWhile_length_le isAsciiDigit cs
  have hB := eatWhile_length_le isAsciiDigit ((eatWhile isAsciiDigit cs).drop 2)
  have hC := eatWhile_length_le isAsciiDigit
    ((eatWhile isAsciiDigit ((eatWhile isAsciiDigit cs).drop 2)).drop 3)
  have hD := eatWhile_length_le isAsciiDigit
    ((eatWhile isAsciiDigit ((eatWhile isAsciiDigit cs).drop 2)).drop 2)
  have hE := eatWhile_length_le isAsciiDigit ((eatWhile isAsciiDigit cs).drop 3)
  split_ifs <;> simp_all [List.length_drop] <;> omega

set_option maxHeartbeats 3200000 in
/-- One scanner step consumes at most the whole remaining stream: after the
initial bump of the first char, what remains is at most the rest. -/
theorem advanceToken_length_le (c : Char) (cs : List Char) :
    ((advanceToken (c :: cs)).2).length ≤ cs.length := by
  have h1 := eatWhile_length_le rustIsWhitespace cs
  have h2 := eatWhile_length_le (fun ch => ch != '\n') cs
  have h3 := blockComment_length_le (cs.drop 1)
  have h4 := stringTok_length_le cs false
  have h5 := functorScan_length_le (cs.drop 1)
  have h6 := functorScan_length_le cs
  have h7 := numberScan_length_le cs
  have h8 := eatWhile_length_le (fun ch => ch == '_') cs
  have h9 := eatWhile_length_le (fun ch => ch == '_' || isAsciiAlphanumeric ch) cs
  have h10 := eatWhile_length_le (fun ch => ch == '_' || isAsciiAlphanumeric ch)
    ((eatWhile (fun ch => ch == '_') cs).drop 1)
  rw [advanceToken]
  simp only [apply_ite Prod.snd, apply_ite List.length]
  repeat' refine ite_le_bound ?_ ?_
  all_goals try (simp only [lineComment, variableScan, List.length_drop] at h3 h5 h10 ⊢)
  all_goals omega

/-- One scanner step on a non-empty stream consumes at least one char. -/
theorem advanceToken_length_lt (cs : List Char) (h : cs ≠ []) :
    ((advanceToken cs).2).length < cs.length := by
  match cs with
  | [] => exact absurd rfl h
  | c :: cs =>
    have := advanceToken_length_le c cs
    simp only [List.length_cons]
    omega

/-- With sufficient fuel the scanned token lengths sum to the input length:
the scanner consumes the input exactly, without gaps or overlaps. -/
theorem tokenizeGo_sum (fuel : Nat) : ∀ cs : List Char, cs.length ≤ fuel →
    sumLens (tokenizeGo fuel cs) = cs.length := by
  induction fuel with
  | zero =>
    intro cs h
    have : cs = [] := List.eq_nil_of_length_eq_zero (Nat.le_zero.mp h)
    subst this
    rfl
  | succ n ih =>
    intro cs h
    match cs with
    | [] => rfl
    | c :: rest =>
      have hle := advanceToken_length_le c rest
      have hrec := ih (advanceToken (c :: rest)).2
        (by simp only [List.length_cons] at h; omega)
      simp only [tokenizeGo, sumLens, List.map_cons, List.sum_cons] at hrec ⊢
      simp only [List.length_cons] at h ⊢
      omega

/-- Concatenating the slices delimited by the offset table of a token list
reproduces the slice of the source from the base offset of the table. -/
theorem sliceJoin_startsAux (cs : List Char) :
    ∀ (ts : List Token) (offset : Nat),
      sliceJoin cs (startsAux offset ts) = (cs.drop offset).take (sumLens ts) := by
  intro ts
  induction ts with
  | nil =>
    intro offset
    simp [startsAux, sliceJoin, sumLens]
  | cons t ts ih =>
    intro offset
    match ts with
    | [] =>
      simp only [startsAux, sliceJoin, sumLens, List.map_cons, List.map_nil,
        List.sum_cons, List.sum_nil]
      simp [List.take_add, List.drop_drop, Nat.add_comm]
    | t2 :: ts2 =>
      simp only [startsAux, sliceJoin]
      rw [← show startsAux (offset + t.len) (t2 :: ts2)
            = (offset + t.len) :: startsAux (offset + t.len + t2.len) ts2 from rfl]
      rw [ih (offset + t.len)]
      have h1 : offset + t.len - offset = t.len := by omega
      have h2 : sumLens (t :: t2 :: ts2) = t.len + sumLens (t2 :: ts2) := by
        simp [sumLens]
      rw [h1, h2, List.take_add, List.drop_drop]

/-- The last two entries of the offset table (the end-of-file sentinel's start
and the table end) both equal the base offset plus the total token length. -/
theorem startsAux_getD_len : ∀ (ts : List Token) (offset : Nat),
    (startsAux offset ts).getD ts.length 0 = offset + sumLens ts
    ∧ (startsAux offset ts).getD (ts.length + 1) 0 = offset + sumLens ts := by
  intro ts
  induction ts with
  | nil => intro offset; simp [startsAux, sumLens]
  | cons t ts ih =>
    intro offset
    have h := ih (offset + t.len)
    simp only [startsAux, List.length_cons, List.getD_cons_succ, sumLens,
      List.map_cons, List.sum_cons] at h ⊢
    constructor
    · rw [h.1]; omega
    · rw [h.2]; omega

/-- One unfolding of `parse_negation` at a state whose current token is `not`:
a `Negation` node is opened and the procedure recurses without consuming the
`not` token (the cursor does not move). -/
theorem run_negation_step (n : Nat) (b : Builder) (t : String)
    (rest : List (SyntaxKind × String)) (pos : Nat) (errs : List PError) (ef : Bool) :
    run (n + 1) PCall.negation ⟨b, (SyntaxKind.Not, t) :: rest, pos, errs, ef⟩
      = (run n PCall.negation
          ⟨⟨(SyntaxKind.Negation, b.children.length) :: b.parents, b.children⟩,
            (SyntaxKind.Not, t) :: rest, pos, errs, ef⟩).map
          (fun s => s.withB Builder.finishNode) := rfl

/-- At any state whose current token is `not`, `parse_negation` exhausts every
fuel bound: the source procedure never terminates there. -/
theorem run_negation_diverges :
    ∀ (fuel : Nat) (b : Builder) (t : String) (rest : List (SyntaxKind × String))
      (pos : Nat) (errs : List PError) (ef : Bool),
      run fuel PCall.negation ⟨b, (SyntaxKind.Not, t) :: rest, pos, errs, ef⟩
        = PRes.noFuel := by
  intro fuel
  induction fuel with
  | zero => intro b t rest pos errs ef; rfl
  | succ n ih =>
    intro b t rest pos errs ef
    rw [run_negation_step, ih]
    rfl

/-- The divergence of `parse_negation` at the concrete state reached while
parsing `a:-not b.`. -/
theorem run_negation_diverges_c1 : ∀ m, run m PCall.negation c1AtNegation = PRes.noFuel :=
  fun m =>
  run_negation_diverges m
    ⟨[(SyntaxKind.Rule, 0), (SyntaxKind.Root, 0)],
     [Element.node SyntaxKind.Literal [Element.token SyntaxKind.Functor "a"],
      Element.token SyntaxKind.Define ":-"]⟩
    "not"
    [(SyntaxKind.Whitespace, " "), (SyntaxKind.Functor, "b"), (SyntaxKind.Dot, ".")]
    2 [] false

/-- Divergence propagates through `parse_conjunction` at that state. -/
theorem run_conjunction_diverges_c1 : ∀ (m : Nat) (K : PState → PRes),
    PRes.bind (run (m + 1) PCall.conjunction c1AtNegation) K = PRes.noFuel := by
  intro m K
  show PRes.bind (PRes.bind (run m PCall.negation c1AtNegation)
      (run m (PCall.conjLoop 2))) K = PRes.noFuel
  rw [run_negation_diverges_c1]
  rfl

/-- Divergence propagates through `parse_term` at that state. -/
theorem run_term_diverges_c1 : ∀ (m : Nat) (K : PState → PRes),
    PRes.bind (run (m + 2) PCall.term c1AtNegation) K = PRes.noFuel := by
  intro m K
  show PRes.bind (PRes.bind (run (m + 1) PCall.conjunction c1AtNegation)
      (run (m + 1) (PCall.termLoop 2))) K = PRes.noFuel
  rw [run_conjunction_diverges_c1]
  rfl

/-- Divergence propagates through `parse_rule_or_belief` from the start state
of `a:-not b.` (the literal and the `:-` are consumed concretely, then the rule
body parse diverges). -/
theorem run_ruleOrBelief_diverges_c1 :
    ∀ m : Nat, run (m + 4) PCall.ruleOrBelief c1Start = PRes.noFuel := by
  intro m
  show PRes.bind (run (m + 3) PCall.term c1AtNegation)
      (fun s =>
        let s := s.skipNoise
        (if s.headKind = some SyntaxKind.Dot then PRes.ok s.bump
         else recover (m + 3) "expected '.' after rule or belief"
                (fun t => t == SyntaxKind.Dot) (fun _ => false) s).map
          (fun s => s.withB Builder.finishNode)) = PRes.noFuel
  rw [run_term_diverges_c1]

/-- Divergence propagates through the top-level dispatch loop. -/
theorem run_topLoop_diverges_c1 :
    ∀ m : Nat, run (m + 5) PCall.topLoop c1Start = PRes.noFuel := by
  intro m
  show PRes.bind (run (m + 4) PCall.ruleOrBelief c1Start) (run (m + 4) PCall.topLoop)
      = PRes.noFuel
  rw [run_ruleOrBelief_diverges_c1]
  rfl

/-- Parsing `a:-not b.` exhausts every fuel bound: the source parser loops
forever on this input. -/
theorem parseProgram_diverges_c1 :
    ∀ fuel, parseProgram fuel (pTokens "a:-not b.") = PRes.noFuel := by
  intro fuel
  match fuel with
  | 0 => rfl
  | 1 => rfl
  | 2 => rfl
  | 3 => rfl
  | 4 => rfl
  | (m + 5) =>
    show (run (m + 5) PCall.topLoop c1Start).map (fun s => s.withB Builder.finishNode)
        = PRes.noFuel
    rw [run_topLoop_diverges_c1]
    rfl

/-- Skipping noise never grows the token stream, and leaves it unchanged when
it shortens nothing. -/
theorem skipNoiseGo_toks : ∀ (ts : List (SyntaxKind × String)) (b : Builder) (pos : Nat),
    (skipNoiseGo b pos ts).2.2 = ts ∨ (skipNoiseGo b pos ts).2.2.length < ts.length := by
  intro ts
  induction ts with
  | nil => intro b pos; left; rfl
  | cons p rest ih =>
    intro b pos
    match p with
    | (k, t) =>
      simp only [skipNoiseGo]
      split
      · rcases ih (b.addToken k t) (pos + 1) with h | h
        · right; rw [h]; simp
        · right; exact Nat.lt_trans h (by simp)
      · left; rfl

/-- Progress of the recovery loop: with fuel exceeding the stream length it
returns a state that consumed at least one token, or exhausted the stream, or
stopped with zero consumed exactly because the exclusive predicate holds at the
current token, which is left unconsumed. -/
theorem recoverGo_progress : ∀ (fuel : Nat) (inc exc : SyntaxKind → Bool) (s : PState),
    s.toks.length < fuel →
    ∃ r, recoverGo fuel inc exc s = PRes.ok r ∧
      (r.toks.length < s.toks.length ∨ r.toks = []
        ∨ ∃ k t rest, r.toks = (k, t) :: rest ∧ exc k = true) := by
  intro fuel
  induction fuel with
  | zero => intro inc exc s h; exact absurd h (Nat.not_lt_zero _)
  | succ n ih =>
    intro inc exc s h
    have hle : (s.skipNoise).toks = s.toks ∨ (s.skipNoise).toks.length < s.toks.length :=
      skipNoiseGo_toks s.toks s.builder s.pos
    simp only [recoverGo]
    cases hh : (s.skipNoise).headKind with
    | none =>
      have hnil : (s.skipNoise).toks = [] := by
        cases hts : (s.skipNoise).toks with
        | nil => rfl
        | cons p r =>
          rw [PState.headKind, hts] at hh
          simp at hh
      exact ⟨s.skipNoise, rfl, Or.inr (Or.inl hnil)⟩
    | some k =>
      obtain ⟨t, rest, hts⟩ : ∃ t rest, (s.skipNoise).toks = (k, t) :: rest := by
        cases hts : (s.skipNoise).toks with
        | nil =>
          rw [PState.headKind, hts] at hh
          simp at hh
        | cons p r =>
          rw [PState.headKind, hts] at hh
          simp at hh
          exact ⟨p.2, r, by rw [← hh]⟩
      dsimp only
      by_cases hexc : exc k = true
      · rw [if_pos hexc]
        exact ⟨s.skipNoise, rfl, Or.inr (Or.inr ⟨k, t, rest, hts, hexc⟩)⟩
      · rw [if_neg hexc]
        have hbump : ((s.skipNoise).bump).toks = rest := by
          rw [PState.bump, hts]
        have hlen : rest.length < s.toks.length := by
          rcases hle with he | hl
          · rw [← he, hts]; simp
          · have : (s.skipNoise).toks.length = rest.length + 1 := by rw [hts]; rfl
            omega
        by_cases hinc : inc k = true
        · rw [if_pos hinc]
          refine ⟨(s.skipNoise).bump, rfl, Or.inl ?_⟩
          rw [hbump]
          exact hlen
        · rw [if_neg hinc]
          obtain ⟨r, hr, hd⟩ := ih inc exc ((s.skipNoise).bump)
            (by rw [hbump]; omega)
          refine ⟨r, hr, ?_⟩
          rcases hd with h1 | h2 | h3
          · left; rw [hbump] at h1; omega
          · right; left; exact h2
          · right; right; exact h3

/-- C1: the totality claim fails on the code. First conjunct: at every state
whose current token is `not`, the parser procedure `parse_negation` never
terminates — it opens a `Negation` node and recurses without consuming the
token, so it exhausts every fuel bound. Second conjunct: consequently, parsing
the well-formed-looking input `a:-not b.` never terminates for any fuel.
Third conjunct: parsing `a:-[].` aborts (the unimplemented-lists abort in
`parse_atom`), so the parser also does not never-panic. -/
theorem claim_c1_totality_fails :
    (∀ (fuel : Nat) (b : Builder) (t : String) (rest : List (SyntaxKind × String))
        (pos : Nat) (errs : List PError) (ef : Bool),
      run fuel PCall.negation ⟨b, (SyntaxKind.Not, t) :: rest, pos, errs, ef⟩
        = PRes.noFuel)
    ∧ (∀ fuel, parseProgram fuel (pTokens "a:-not b.") = PRes.noFuel)
    ∧ parseProgram 50 (pTokens "a:-[].") = PRes.panicked :=
  ⟨run_negation_diverges, parseProgram_diverges_c1, rfl⟩

/-- C2: losslessness of the lexed stream. For every input, concatenating the
source slices given by consecutive entries of the offset table (every token's
byte range, in token-index order, the end-of-file sentinel included)
reproduces the input exactly; and the end-of-file sentinel's range is the
empty range starting (and ending) at the source length. -/
theorem claim_c2_losslessness (cs : List Char) :
    sliceJoin cs (lexedStarts cs) = cs
    ∧ (lexedStarts cs).getD (tokenizeList cs).length 0 = cs.length
    ∧ (lexedStarts cs).getD ((tokenizeList cs).length + 1) 0 = cs.length := by
  refine ⟨?_, ?_, ?_⟩
  · rw [lexedStarts, sliceJoin_startsAux, tokenizeList,
      tokenizeGo_sum cs.length cs (Nat.le_refl _)]
    simp
  · rw [lexedStarts, (startsAux_getD_len _ 0).1, tokenizeList,
      tokenizeGo_sum cs.length cs (Nat.le_refl _)]
    omega
  · rw [lexedStarts, (startsAux_getD_len _ 0).2, tokenizeList,
      tokenizeGo_sum cs.length cs (Nat.le_refl _)]
    omega

/-- C3 counterexample: the claim says `truex` is lexed as a single Functor
token; the scanner in fact lexes it as the keyword `true` (length 4) followed
by the functor `x` (length 1), because the keyword test is a prefix
compare-and-advance and does not check that the match consumes the whole
identifier run. -/
theorem claim_c3_counterexample :
    tokenizeList "truex".toList = [⟨.True, 4⟩, ⟨.Functor, 1⟩]
    ∧ tokenizeList "truex".toList ≠ [⟨.Functor, 5⟩] := by
  constructor
  · rfl
  · rw [show tokenizeList "truex".toList
        = ([⟨.True, 4⟩, ⟨.Functor, 1⟩] : List Token) from rfl]
    simp

/-- C3 as amended: a lowercase run beginning with a reserved keyword is lexed
as that keyword token even when more identifier characters follow — `truex`
lexes as `true` plus functor `x` and `iff` as `if` plus functor `f` — while an
exact keyword (`true`) is the keyword token alone and a run not beginning with
any keyword (`trux`) is a single Functor token. -/
theorem claim_c3_amended :
    tokenizeList "truex".toList = [⟨.True, 4⟩, ⟨.Functor, 1⟩]
    ∧ tokenizeList "iff".toList = [⟨.If, 2⟩, ⟨.Functor, 1⟩]
    ∧ tokenizeList "true".toList = [⟨.True, 4⟩]
    ∧ tokenizeList "trux".toList = [⟨.Functor, 4⟩] :=
  ⟨rfl, rfl, rfl, rfl⟩

/-- C4 counterexample: the claim says a backslash escapes a newline, so that
a backslash-newline inside a string does not end the token; on the input
consisting of quote, `a`, backslash, newline, `b`, quote the scanner in fact
ends the string token at the newline (unterminated, length 4) rather than
scanning one terminated token of length 6. -/
theorem claim_c4_counterexample :
    tokenizeList [Char.ofNat 34, 'a', '\\', '\n', 'b', Char.ofNat 34]
      = [⟨.String false, 4⟩, ⟨.Functor, 1⟩, ⟨.String false, 1⟩]
    ∧ tokenizeList [Char.ofNat 34, 'a', '\\', '\n', 'b', Char.ofNat 34]
        ≠ [⟨.String true, 6⟩] := by
  constructor
  · rfl
  · rw [show tokenizeList [Char.ofNat 34, 'a', '\\', '\n', 'b', Char.ofNat 34]
        = ([⟨.String false, 4⟩, ⟨.Functor, 1⟩, ⟨.String false, 1⟩] : List Token) from rfl]
    simp

/-- C4 as amended: in a double-quoted string a backslash escapes the next
character except a newline — an escaped quote does not end the token, but any
newline, escaped or not, ends the token with terminated false, as does end of
input; an unescaped quote ends it with terminated true. The first conjunct is
the general newline rule, the second the escaped-quote rule; the rest are the
concrete scans. -/
theorem claim_c4_amended :
    (∀ (esc : Bool) (cs : List Char), stringTok esc ('\n' :: cs) = (.String false, cs))
    ∧ (∀ cs : List Char, stringTok true (Char.ofNat 34 :: cs) = stringTok false cs)
    ∧ tokenizeList [Char.ofNat 34, 'a', '\\', Char.ofNat 34, 'b', Char.ofNat 34]
        = [⟨.String true, 6⟩]
    ∧ tokenizeList [Char.ofNat 34, 'a', '\\', '\n', 'b', Char.ofNat 34]
        = [⟨.String false, 4⟩, ⟨.Functor, 1⟩, ⟨.String false, 1⟩]
    ∧ tokenizeList [Char.ofNat 34, 'a', '\n', 'b'] = [⟨.String false, 3⟩, ⟨.Functor, 1⟩]
    ∧ tokenizeList [Char.ofNat 34, 'a'] = [⟨.String false, 2⟩] :=
  ⟨fun _ _ => rfl, fun _ => rfl, rfl, rfl, rfl, rfl⟩

/-- C5 counterexample: the claim says parsing `foo()[]` as a literal appends
no syntactic error; in fact the parser appends one (the empty parenthesis list
triggers an expected-atom error) and moreover leaves the closing bracket of
the empty annotation list unconsumed. -/
theorem claim_c5_counterexample :
    resErrorsEmpty (run 64 PCall.literal (initPState (pTokens "foo()[]"))) = some false
    ∧ resToks (run 64 PCall.literal (initPState (pTokens "foo()[]")))
        = some [(SyntaxKind.CloseBracket, "]")] := ⟨rfl, rfl⟩

/-- C5 as amended: parsing `foo()[]` where a literal is expected yields a
Literal node whose LiteralTerms node holds the parens around an empty Error
node, and a present LiteralAnnotations node holding only the open bracket —
the close bracket is left unconsumed because the empty-annotation branch skips
the close-bracket bump — and exactly one syntactic error (expected atom, at
token index 2) is appended. -/
theorem claim_c5_amended :
    run 64 PCall.literal (initPState (pTokens "foo()[]")) = PRes.ok
      ⟨⟨[], [Element.node SyntaxKind.Literal
          [Element.token SyntaxKind.Functor "foo",
           Element.node SyntaxKind.LiteralTerms
             [Element.token SyntaxKind.OpenParen "(",
              Element.node SyntaxKind.Error [],
              Element.token SyntaxKind.CloseParen ")"],
           Element.node SyntaxKind.LiteralAnnotations
             [Element.token SyntaxKind.OpenBracket "["]]]⟩,
       [(SyntaxKind.CloseBracket, "]")], 4,
       [⟨"expected atom, got CloseParen", 2⟩], false⟩ := rfl

/-- C6 counterexample: the claim says the plan body is introduced by the
two-character operator `->`; parsing the plan `+a->b.` (where `->` follows the
trigger literal) in fact produces no Body node at all and leaves the `-` and
`>` tokens unconsumed, with no error recorded by the plan parser. -/
theorem claim_c6_counterexample :
    resHasKind (run 64 PCall.plan (initPState (pTokens "+a->b."))) SyntaxKind.Body
      = some false
    ∧ resToks (run 64 PCall.plan (initPState (pTokens "+a->b.")))
        = some [(SyntaxKind.Minus, "-"), (SyntaxKind.Gt, ">"),
                (SyntaxKind.Functor, "b"), (SyntaxKind.Dot, ".")]
    ∧ resErrorsEmpty (run 64 PCall.plan (initPState (pTokens "+a->b.")))
        = some true := ⟨rfl, rfl, rfl⟩

/-- C6 as amended: the optional plan body is introduced by the two-character
operator `<-` (the Arrow token), not `->`: when `<-` follows, the parser
consumes it and parses a Body node of one or more formulas separated by `;`
and terminated by `.` (shown for one and for two formulas); when `->` follows
instead, it is not consumed and no Body node is produced. -/
theorem claim_c6_amended :
    run 64 PCall.plan (initPState (pTokens "+a<-b.")) = PRes.ok
      ⟨⟨[], [Element.node SyntaxKind.Plan
          [Element.token SyntaxKind.Plus "+",
           Element.node SyntaxKind.Literal [Element.token SyntaxKind.Functor "a"],
           Element.token SyntaxKind.Arrow "<-",
           Element.node SyntaxKind.Body
             [Element.node SyntaxKind.Formula
                [Element.node SyntaxKind.Literal [Element.token SyntaxKind.Functor "b"]],
              Element.token SyntaxKind.Dot "."]]]⟩,
       [], 5, [], false⟩
    ∧ run 64 PCall.plan (initPState (pTokens "+a<-b;c.")) = PRes.ok
      ⟨⟨[], [Element.node SyntaxKind.Plan
          [Element.token SyntaxKind.Plus "+",
           Element.node SyntaxKind.Literal [Element.token SyntaxKind.Functor "a"],
           Element.token SyntaxKind.Arrow "<-",
           Element.node SyntaxKind.Body
             [Element.node SyntaxKind.Formula
                [Element.node SyntaxKind.Literal [Element.token SyntaxKind.Functor "b"]],
              Element.token SyntaxKind.Semi ";",
              Element.node SyntaxKind.Formula
                [Element.node SyntaxKind.Literal [Element.token SyntaxKind.Functor "c"]],
              Element.token SyntaxKind.Dot "."]]]⟩,
       [], 7, [], false⟩
    ∧ resHasKind (run 64 PCall.plan (initPState (pTokens "+a->b."))) SyntaxKind.Body
        = some false := ⟨rfl, rfl, rfl⟩

/-- C7: expression precedence and associativity. `1 + 2 * 3` parses with the
multiplication as the deeper node (the tree of `1 + (2 * 3)`); `2 ** 3 ** 2`
groups right-associatively as `2 ** (3 ** 2)`; `1 - 2 - 3` groups
left-associatively as `(1 - 2) - 3`.  Whitespace tokens appear in the trees
because the tree is lossless. -/
theorem claim_c7_precedence :
    run 64 PCall.term (initPState (pTokens "1 + 2 * 3")) = PRes.ok
      ⟨⟨[], [Element.node SyntaxKind.AdditiveExpression
          [Element.token SyntaxKind.Integer "1",
           Element.token SyntaxKind.Whitespace " ",
           Element.token SyntaxKind.Plus "+",
           Element.node SyntaxKind.MultiplicativeExpression
             [Element.token SyntaxKind.Whitespace " ",
              Element.token SyntaxKind.Integer "2",
              Element.token SyntaxKind.Whitespace " ",
              Element.token SyntaxKind.Star "*",
              Element.token SyntaxKind.Whitespace " ",
              Element.token SyntaxKind.Integer "3"]]]⟩,
       [], 9, [], false⟩
    ∧ run 64 PCall.term (initPState (pTokens "2 ** 3 ** 2")) = PRes.ok
      ⟨⟨[], [Element.node SyntaxKind.Exponentiation
          [Element.token SyntaxKind.Integer "2",
           Element.token SyntaxKind.Whitespace " ",
           Element.token SyntaxKind.Pow "**",
           Element.token SyntaxKind.Whitespace " ",
           Element.node SyntaxKind.Exponentiation
             [Element.token SyntaxKind.Integer "3",
              Element.token SyntaxKind.Whitespace " ",
              Element.token SyntaxKind.Pow "**",
              Element.token SyntaxKind.Whitespace " ",
              Element.token SyntaxKind.Integer "2"]]]⟩,
       [], 9, [], false⟩
    ∧ run 64 PCall.term (initPState (pTokens "1 - 2 - 3")) = PRes.ok
      ⟨⟨[], [Element.node SyntaxKind.AdditiveExpression
          [Element.node SyntaxKind.AdditiveExpression
             [Element.token SyntaxKind.Integer "1",
              Element.token SyntaxKind.Whitespace " ",
              Element.token SyntaxKind.Minus "-",
              Element.token SyntaxKind.Whitespace " ",
              Element.token SyntaxKind.Integer "2",
              Element.token SyntaxKind.Whitespace " "],
           Element.token SyntaxKind.Minus "-",
           Element.token SyntaxKind.Whitespace " ",
           Element.token SyntaxKind.Integer "3"]]⟩,
       [], 9, [], false⟩ := ⟨rfl, rfl, rfl⟩

/-- C8 counterexample: the claim says every invocation of the recovery
procedure consumes at least one token or stops only because the cursor is
exhausted. Invoked exactly as `parse_literal` invokes it, on the stream
holding one Dot token, recovery returns with the Dot still unconsumed (the
exclusive predicate fires before any token is consumed) — zero tokens
consumed while unconsumed tokens remain; the second conjunct shows the
invocation arising through the literal parser itself. -/
theorem claim_c8_counterexample :
    recover 16 "expected literal, got Dot" (fun _ => false)
        (fun t => t == SyntaxKind.Dot || t == SyntaxKind.Semi)
        (initPState (pTokens ".")) = PRes.ok
      ⟨⟨[], [Element.node SyntaxKind.Error []]⟩, [(SyntaxKind.Dot, ".")], 0,
       [⟨"expected literal, got Dot", 0⟩], false⟩
    ∧ run 16 PCall.literal (initPState (pTokens "."))
        = PRes.ok
      ⟨⟨[], [Element.node SyntaxKind.Literal [Element.node SyntaxKind.Error []]]⟩,
       [(SyntaxKind.Dot, ".")], 0, [⟨"expected literal, got Dot", 0⟩], false⟩ :=
  ⟨rfl, rfl⟩

/-- C8 as amended: every invocation of the recovery procedure (with fuel
exceeding the stream length, which the fuel model always grants) returns
having consumed at least one token, or with the cursor exhausted, or with
zero tokens consumed exactly because the exclusive stop predicate holds at the
current token, which is left unconsumed for the caller. -/
theorem claim_c8_amended (fuel : Nat) (msg : String) (inc exc : SyntaxKind → Bool)
    (s : PState) (h : s.toks.length < fuel) :
    ∃ r, recover fuel msg inc exc s = PRes.ok r ∧
      (r.toks.length < s.toks.length ∨ r.toks = []
        ∨ ∃ k t rest, r.toks = (k, t) :: rest ∧ exc k = true) := by
  obtain ⟨r, hr, hd⟩ := recoverGo_progress fuel inc exc
    ((s.pushError msg).withB (fun b => b.startNode .Error)) h
  refine ⟨r.withB Builder.finishNode, ?_, ?_⟩
  · rw [recover, hr]; rfl
  · exact hd

/-- C8 witness: the amended recovery-progress theorem applied at the concrete
invocation on a one-token stream. -/
theorem claim_c8_witness :
    ∃ r, recover 2 "m" (fun _ => false) (fun _ => false)
        (initPState [(SyntaxKind.Dot, ".")]) = PRes.ok r ∧
      (r.toks.length < (initPState [(SyntaxKind.Dot, ".")]).toks.length ∨ r.toks = []
        ∨ ∃ k t rest, r.toks = (k, t) :: rest ∧ (fun _ : SyntaxKind => false) k = true) :=
  claim_c8_amended 2 "m" (fun _ => false) (fun _ => false)
    (initPState [(SyntaxKind.Dot, ".")]) (by decide)

/-- C9: dotted functor against statement terminator. `foo.bar(1).` lexes as
one Functor token `foo.bar` (length 7), then open paren, integer, close paren,
then a standalone Dot; `foo.` lexes as Functor `foo` then Dot, because the
trailing dot is not followed by a lowercase letter. -/
theorem claim_c9_dotted_functor :
    tokenizeList "foo.bar(1).".toList
      = [⟨.Functor, 7⟩, ⟨.OpenParen, 1⟩, ⟨.Integer, 1⟩, ⟨.CloseParen, 1⟩, ⟨.Dot, 1⟩]
    ∧ tokenizeList "foo.".toList = [⟨.Functor, 3⟩, ⟨.Dot, 1⟩] := ⟨rfl, rfl⟩

/-- C10: a token beginning with a dot immediately followed by an ASCII
lowercase letter consumes both and continues functor scanning (first
conjunct, the general rule straight from the scanner); hence `.foo` is one
Functor token of length 4, and `1.foo` is Integer `1` followed by Functor
`.foo`, never a Dot token plus a separate identifier. -/
theorem claim_c10_dot_functor :
    (∀ (c : Char) (cs : List Char), isAsciiLower c = true →
      advanceToken ('.' :: c :: cs) = (.Functor, functorScan cs))
    ∧ tokenizeList ".foo".toList = [⟨.Functor, 4⟩]
    ∧ tokenizeList "1.foo".toList = [⟨.Integer, 1⟩, ⟨.Functor, 4⟩] := by
  refine ⟨?_, rfl, rfl⟩
  intro c cs h
  have key : advanceToken ('.' :: c :: cs)
      = if isAsciiLower (firstC (c :: cs)) then
          (TokenKind.Functor, functorScan ((c :: cs).drop 1))
        else (TokenKind.Dot, c :: cs) := rfl
  rw [key]
  simp [firstC, h]

/-- C10 witness: the general dot-functor rule applied at the concrete input
`.foo`. -/
theorem claim_c10_witness :
    advanceToken ('.' :: 'f' :: "oo".toList) = (.Functor, functorScan "oo".toList) :=
  claim_c10_dot_functor.1 'f' "oo".toList (by decide)
